import Mathlib

/-!
Shallow embedding of the project-context persistence and summarization layer
of the repository (src/project_management.py, src/web_app.py), together with
proofs about the claims of its specification.

Modelling conventions:
* Time instants (`datetime` values) are integers counting seconds; the ISO-8601
  `date` string stored in each record file is carried alongside the parsed
  instant, since formatting uses the raw string while window filtering uses the
  parsed value (`datetime.fromisoformat`). `timedelta(days=d)` is `d * 86400`
  seconds.
* A category directory is a list of `(filename, parse outcome)` pairs in
  `os.listdir` enumeration order. A file whose JSON is malformed (or otherwise
  fails to parse as a record, e.g. `json.load` raising `JSONDecodeError`) is an
  `Except.error` carrying the Python exception message; a parseable record file
  is `Except.ok` with the structured record.
* Python functions that can raise are embedded as `Except String` values;
  a raised exception that propagates out of a function is `Except.error`.
* A Python function body with no `return` statement returns `None`; this is
  embedded as an `Option` result that is `none`.
-/

set_option maxRecDepth 10000

namespace ProjectChatbot

/-- One second-precision day, matching `timedelta(days=1)`. -/
def secondsPerDay : Int := 86400

/-- Python `s.endswith(suffix)`: suffix test, embedded over the character
list of the string. -/
def pyEndsWith (s suffix : String) : Bool :=
  suffix.toList.isSuffixOf s.toList

/-- Python `s.startswith(pre)`: prefix test, embedded over the character
list of the string. -/
def pyStartsWith (s pre : String) : Bool :=
  pre.toList.isPrefixOf s.toList

/-- Python `s.lower()`, embedded as a character-wise lowering of the string
(the record contents in this repository are ASCII, where the two notions of
lowercasing agree). -/
def pyLower (s : String) : String :=
  String.mk (s.toList.map Char.toLower)

/-- A meeting record as written by `ProjectManager.log_meeting`
(src/project_management.py): fields `id`, `timestamp`, `date`,
`participants`, `key_discussions`, `action_items`, `decisions`, `next_steps`.
`dateStr` is the stored ISO-8601 `date` string; `date` is the instant it
denotes (the value of `datetime.fromisoformat(dateStr)`). -/
structure Meeting where
  id : String
  timestamp : String
  dateStr : String
  date : Int
  participants : List String
  key_discussions : List String
  action_items : List String
  decisions : List String
  next_steps : List String
deriving DecidableEq

/-- A requirement-change record as written by
`ProjectManager.log_requirement_change`. -/
structure RequirementChange where
  id : String
  timestamp : String
  dateStr : String
  date : Int
  category : String
  changes : List String
  rationale : String
  impact : List String
  proposed_by : String
deriving DecidableEq

/-- A milestone record as written by `ProjectManager.log_milestone`.
`completion_date` is `details.get('completion_date')`, which defaults to
Python `None`, hence an `Option`. -/
structure Milestone where
  id : String
  timestamp : String
  dateStr : String
  date : Int
  name : String
  description : String
  status : String
  completion_date : Option String
  key_achievements : List String
deriving DecidableEq

instance {ε α : Type} [DecidableEq ε] [DecidableEq α] : DecidableEq (Except ε α) := fun a b =>
  match a, b with
  | Except.ok x, Except.ok y =>
    if h : x = y then isTrue (by rw [h]) else isFalse (by intro hc; injection hc; exact h (by assumption))
  | Except.error x, Except.error y =>
    if h : x = y then isTrue (by rw [h]) else isFalse (by intro hc; injection hc; exact h (by assumption))
  | Except.ok _, Except.error _ => isFalse (by intro hc; exact Except.noConfusion hc)
  | Except.error _, Except.ok _ => isFalse (by intro hc; exact Except.noConfusion hc)

/-- A file in a category directory: its filename and the outcome of
`json.load` + record interpretation (`Except.error msg` when the JSON is
malformed and the load raises). -/
abbrev FileEntry (α : Type) := String × Except String α

/-- The on-disk record store scoped to one project: the `meetings/`,
`requirements/` and `logs/` directories scanned by
`ProjectManager.generate_project_summary`, each a list of files in
enumeration order, plus the project name. -/
structure Store where
  project_name : String
  meetings : List (FileEntry Meeting)
  requirements : List (FileEntry RequirementChange)
  logs : List (FileEntry Milestone)
deriving DecidableEq

/-- The summary dictionary built by `generate_project_summary`: keys
`project_name`, `summary_period`, `meetings`, `requirement_changes`,
`milestones`. -/
structure Summary where
  project_name : String
  summary_period : String
  meetings : List Meeting
  requirement_changes : List RequirementChange
  milestones : List Milestone
deriving DecidableEq

/-- One directory-scan loop of `generate_project_summary`: iterate the files
in order; for each filename accepted by `keep`, parse it (a malformed file
raises, so the whole scan aborts with that error) and append the record when
its `date` is strictly after `cutoff`. The three loops in the source differ
only in the filename predicate and the record type. -/
def scanFiles {α : Type} (keep : String → Bool) (cutoff : Int) (dateOf : α → Int) :
    List (FileEntry α) → Except String (List α)
  | [] => Except.ok []
  | (name, content) :: rest =>
    if keep name then
      match content with
      | Except.error e => Except.error e
      | Except.ok r =>
        match scanFiles keep cutoff dateOf rest with
        | Except.error e => Except.error e
        | Except.ok tail => Except.ok (if dateOf r > cutoff then r :: tail else tail)
    else scanFiles keep cutoff dateOf rest

/-- Embeds `ProjectManager.generate_project_summary(days=30)`
(src/project_management.py lines 169-216): `cutoff_date = now - timedelta(days)`;
scan `meetings/` (files ending in `.json`), then `requirements/` (same), then
`logs/` (files starting with `milestone_` and ending in `.json`); a record is
included iff its parsed `date` is strictly greater than the cutoff. There is
no exception handling in the source: the first file whose JSON fails to load
aborts the whole call with that error. -/
def generate_project_summary (st : Store) (now : Int) (days : Int) :
    Except String Summary :=
  let cutoff_date := now - days * secondsPerDay
  match scanFiles (fun n => pyEndsWith n ".json") cutoff_date Meeting.date st.meetings with
  | Except.error e => Except.error e
  | Except.ok ms =>
    match scanFiles (fun n => pyEndsWith n ".json") cutoff_date RequirementChange.date st.requirements with
    | Except.error e => Except.error e
    | Except.ok rs =>
      match scanFiles (fun n => pyStartsWith n "milestone_" && pyEndsWith n ".json") cutoff_date Milestone.date st.logs with
      | Except.error e => Except.error e
      | Except.ok mls =>
        Except.ok { project_name := st.project_name
                    summary_period := "Last " ++ toString days ++ " days"
                    meetings := ms
                    requirement_changes := rs
                    milestones := mls }

/-- The string-formatting part of `ProjectManager.get_recent_context`
(src/project_management.py lines 252-271): header line naming the window,
then the `Meetings:`, `Requirement Changes:` and `Milestones:` sections, one
`- ...` line per record. Meetings show `date: comma-joined key_discussions`,
requirement changes show `date: comma-joined changes`, milestones show
`name: status`. -/
def formatContext (summary : Summary) (days : Int) : String :=
  let ctx := "Recent Project Context (Last " ++ toString days ++ " days):\n\n"
  let ctx := ctx ++ "Meetings:\n"
  let ctx := ctx ++ String.join (summary.meetings.map (fun m =>
    "- " ++ m.dateStr ++ ": " ++ String.intercalate ", " m.key_discussions ++ "\n"))
  let ctx := ctx ++ "\nRequirement Changes:\n"
  let ctx := ctx ++ String.join (summary.requirement_changes.map (fun r =>
    "- " ++ r.dateStr ++ ": " ++ String.intercalate ", " r.changes ++ "\n"))
  let ctx := ctx ++ "\nMilestones:\n"
  let ctx := ctx ++ String.join (summary.milestones.map (fun m =>
    "- " ++ m.name ++ ": " ++ m.status ++ "\n"))
  ctx

/-- Embeds `ProjectManager.get_recent_context(category=None, days=30)`
(src/project_management.py lines 240-277). The `category` parameter is unused
in the source body and is omitted here. The body calls
`generate_project_summary(days)` inside `try`, formats the result, and on any
exception returns the `Unable to generate project context` string instead. -/
def get_recent_context (st : Store) (now : Int) (days : Int) : String :=
  match generate_project_summary st now days with
  | Except.ok summary => formatContext summary days
  | Except.error e => "Unable to generate project context. Error: " ++ e

/-- Python `repr` of a string value as it appears inside `str(dict)`, for
field values that contain no quote or escape characters (all values in this
repository's records are plain text). -/
def pyReprStr (s : String) : String := "'" ++ s ++ "'"

/-- Python `str` of a list of strings: `['a', 'b']`. -/
def pyReprList (xs : List String) : String :=
  "[" ++ String.intercalate ", " (xs.map pyReprStr) ++ "]"

/-- Python `str` of an optional string: `None` or the quoted string. -/
def pyReprOpt (x : Option String) : String :=
  match x with
  | none => "None"
  | some s => pyReprStr s

/-- Python `str(meeting)` for a meeting dictionary: keys in the insertion order used
by `log_meeting` (`id`, `timestamp`, `date`, `participants`,
`key_discussions`, `action_items`, `decisions`, `next_steps`). -/
def pyStrMeeting (m : Meeting) : String :=
  "\x7b'id': " ++ pyReprStr m.id ++
  ", 'timestamp': " ++ pyReprStr m.timestamp ++
  ", 'date': " ++ pyReprStr m.dateStr ++
  ", 'participants': " ++ pyReprList m.participants ++
  ", 'key_discussions': " ++ pyReprList m.key_discussions ++
  ", 'action_items': " ++ pyReprList m.action_items ++
  ", 'decisions': " ++ pyReprList m.decisions ++
  ", 'next_steps': " ++ pyReprList m.next_steps ++ "\x7d"

/-- Python `str(req_change)` for a requirement-change dictionary, keys in the
insertion order used by `log_requirement_change`. -/
def pyStrRequirementChange (r : RequirementChange) : String :=
  "\x7b'id': " ++ pyReprStr r.id ++
  ", 'timestamp': " ++ pyReprStr r.timestamp ++
  ", 'date': " ++ pyReprStr r.dateStr ++
  ", 'category': " ++ pyReprStr r.category ++
  ", 'changes': " ++ pyReprList r.changes ++
  ", 'rationale': " ++ pyReprStr r.rationale ++
  ", 'impact': " ++ pyReprList r.impact ++
  ", 'proposed_by': " ++ pyReprStr r.proposed_by ++ "\x7d"

/-- Python `str(milestone)` for a milestone dictionary, keys in the insertion order
used by `log_milestone`. -/
def pyStrMilestone (m : Milestone) : String :=
  "\x7b'id': " ++ pyReprStr m.id ++
  ", 'timestamp': " ++ pyReprStr m.timestamp ++
  ", 'date': " ++ pyReprStr m.dateStr ++
  ", 'name': " ++ pyReprStr m.name ++
  ", 'description': " ++ pyReprStr m.description ++
  ", 'status': " ++ pyReprStr m.status ++
  ", 'completion_date': " ++ pyReprOpt m.completion_date ++
  ", 'key_achievements': " ++ pyReprList m.key_achievements ++ "\x7d"

/-- Contiguous-sublist test on character lists: `needle` occurs starting at
some position of `hay`. -/
def charsInfix (needle : List Char) : List Char → Bool
  | [] => needle.isEmpty
  | c :: rest => needle.isPrefixOf (c :: rest) || charsInfix needle rest

/-- Python `needle in hay` on strings: substring containment (the empty string
is contained in everything). -/
def pySubstr (needle hay : String) : Bool :=
  charsInfix needle.toList hay.toList

/-- The three filtered sequences returned by `get_category_summary`. -/
structure FilteredSummary where
  meetings : List Meeting
  requirement_changes : List RequirementChange
  milestones : List Milestone
deriving DecidableEq

/-- Embeds `ProjectManager.get_category_summary(category)`
(src/project_management.py lines 279-312): calls
`generate_project_summary()` with its default 30-day window, keeps in each of
the three sequences the records whose `str(...)` lowercased contains
`category.lower()` as a substring, and returns `{}` (here `none`) if an
exception was raised. -/
def get_category_summary (st : Store) (now : Int) (category : String) :
    Option FilteredSummary :=
  match generate_project_summary st now 30 with
  | Except.error _ => none
  | Except.ok summary =>
    some { meetings := summary.meetings.filter
             (fun m => pySubstr (pyLower category) (pyLower (pyStrMeeting m)))
           requirement_changes := summary.requirement_changes.filter
             (fun r => pySubstr (pyLower category) (pyLower (pyStrRequirementChange r)))
           milestones := summary.milestones.filter
             (fun m => pySubstr (pyLower category) (pyLower (pyStrMilestone m))) }

/-- Caller-supplied `details` dictionary for `log_meeting`: each key may be
absent (`none`), in which case `details.get(key, default)` falls back. -/
structure MeetingDetails where
  participants : Option (List String) := none
  key_discussions : Option (List String) := none
  action_items : Option (List String) := none
  decisions : Option (List String) := none
  next_steps : Option (List String) := none
deriving DecidableEq

/-- Caller-supplied `details` for `log_requirement_change`. -/
structure RequirementDetails where
  category : Option String := none
  changes : Option (List String) := none
  rationale : Option String := none
  impact : Option (List String) := none
  proposed_by : Option String := none
deriving DecidableEq

/-- Caller-supplied `details` for `log_milestone`. -/
structure MilestoneDetails where
  name : Option String := none
  description : Option String := none
  status : Option String := none
  completion_date : Option String := none
  key_achievements : Option (List String) := none
deriving DecidableEq

/-- The `project_metadata.json` dictionary: fixed fields plus the lazily
created per-section ID lists (`_update_project_metadata` creates a section on
first use). Sections are an association list in key insertion order. -/
structure Metadata where
  project_name : String
  created_at : String
  last_updated : String
  status : String
  sections : List (String × List String)
deriving DecidableEq

/-- Embeds `ProjectManager._update_project_metadata(section, new_item)`
(src/project_management.py lines 145-167): read the metadata, create the
section list if absent, append the new item, refresh `last_updated` with the
current time, write back. -/
def update_project_metadata (md : Metadata) (sec : String) (new_item : String)
    (nowIso : String) : Metadata :=
  let secs := if md.sections.any (fun p => p.1 = sec) then md.sections
              else md.sections ++ [(sec, [])]
  { md with
    sections := secs.map (fun p => if p.1 = sec then (p.1, p.2 ++ [new_item]) else p)
    last_updated := nowIso }

/-- Result of one record-store append: the store and metadata after the two
file writes, plus the Python return value of the logging method. -/
structure LogResult (δ : Type) where
  store : Store
  metadata : Metadata
  record : δ
  ret : Option String
deriving DecidableEq

/-- Embeds `ProjectManager.log_meeting(details)` (src/project_management.py lines
57-85): builds `meeting_id = "meeting_<timestamp>_<8-hex-uuid>"`, assembles
the record dictionary with `details.get` defaults, writes it to
`meetings/<id>.json`, and updates the metadata `meetings` section. The Python
body has no `return` statement, so the method returns `None` (`ret := none`).
`ts` is `datetime.now().strftime("%Y%m%d_%H%M%S")`, `u8` the
`uuid.uuid4().hex[:8]` suffix, `nowIso` the `datetime.now().isoformat()`
string and `nowInstant` the instant it denotes. -/
def log_meeting (st : Store) (md : Metadata) (ts u8 nowIso : String)
    (nowInstant : Int) (details : MeetingDetails) : LogResult Meeting :=
  let meeting_id := "meeting_" ++ ts ++ "_" ++ u8
  let meeting_log : Meeting :=
    { id := meeting_id
      timestamp := ts
      dateStr := nowIso
      date := nowInstant
      participants := details.participants.getD []
      key_discussions := details.key_discussions.getD []
      action_items := details.action_items.getD []
      decisions := details.decisions.getD []
      next_steps := details.next_steps.getD [] }
  { store := { st with meetings := st.meetings ++ [(meeting_id ++ ".json", Except.ok meeting_log)] }
    metadata := update_project_metadata md "meetings" meeting_id nowIso
    record := meeting_log
    ret := none }

/-- Embeds `ProjectManager.log_requirement_change(details)` (src/project_management.py
lines 87-114): same shape with `requirement_` ID prefix, the
requirement-specific defaults, the `requirements/` directory and the
`requirements` metadata section; no `return` statement, so `None`. -/
def log_requirement_change (st : Store) (md : Metadata) (ts u8 nowIso : String)
    (nowInstant : Int) (details : RequirementDetails) : LogResult RequirementChange :=
  let req_change_id := "requirement_" ++ ts ++ "_" ++ u8
  let requirement_log : RequirementChange :=
    { id := req_change_id
      timestamp := ts
      dateStr := nowIso
      date := nowInstant
      category := details.category.getD "General"
      changes := details.changes.getD []
      rationale := details.rationale.getD ""
      impact := details.impact.getD []
      proposed_by := details.proposed_by.getD "Unknown" }
  { store := { st with requirements := st.requirements ++ [(req_change_id ++ ".json", Except.ok requirement_log)] }
    metadata := update_project_metadata md "requirements" req_change_id nowIso
    record := requirement_log
    ret := none }

/-- Embeds `ProjectManager.log_milestone(details)` (src/project_management.py lines
116-143): `milestone_` ID prefix, milestone defaults, file written into the
`logs/` directory, `milestones` metadata section; no `return` statement, so
`None`. -/
def log_milestone (st : Store) (md : Metadata) (ts u8 nowIso : String)
    (nowInstant : Int) (details : MilestoneDetails) : LogResult Milestone :=
  let milestone_id := "milestone_" ++ ts ++ "_" ++ u8
  let milestone_log : Milestone :=
    { id := milestone_id
      timestamp := ts
      dateStr := nowIso
      date := nowInstant
      name := details.name.getD "Unnamed Milestone"
      description := details.description.getD ""
      status := details.status.getD "Pending"
      completion_date := details.completion_date
      key_achievements := details.key_achievements.getD [] }
  { store := { st with logs := st.logs ++ [(milestone_id ++ ".json", Except.ok milestone_log)] }
    metadata := update_project_metadata md "milestones" milestone_id nowIso
    record := milestone_log
    ret := none }

/-- One chat turn: the `{"role": ..., "content": ...}` dictionary kept in
`ConversationManager.history` (src/web_app.py). -/
structure Turn where
  role : String
  content : String
deriving DecidableEq

/-- Embeds `ConversationManager` (src/web_app.py lines 42-61): a list of turns and
the capacity (`max_history_length`, default 20). -/
structure ConversationManager where
  history : List Turn
  max_history_length : Nat
deriving DecidableEq

/-- Embeds `ConversationManager.add_message(role, content)` (src/web_app.py lines
47-51): if `len(history) >= max_history_length`, `history.pop(0)` removes the
oldest turn (index 0; in every state the application reaches, the eviction
branch only fires on a non-empty list since the default capacity is 20 > 0,
so `pop(0)` is `List.drop 1`), then the new turn is appended. -/
def ConversationManager.add_message (cm : ConversationManager)
    (role content : String) : ConversationManager :=
  let h := if cm.history.length ≥ cm.max_history_length
           then cm.history.drop 1 else cm.history
  { cm with history := h ++ [{ role := role, content := content }] }

/-- Embeds `ConversationManager.get_context_messages()` (src/web_app.py lines 53-58):
rebuilds each turn as a fresh `{"role", "content"}` dictionary, in order. -/
def ConversationManager.get_context_messages (cm : ConversationManager) : List Turn :=
  cm.history.map (fun msg => { role := msg.role, content := msg.content })

/-- Embeds `ConversationManager.reset()` (src/web_app.py lines 60-61):
`history.clear()`. -/
def ConversationManager.reset (cm : ConversationManager) : ConversationManager :=
  { cm with history := [] }

/-- Fold `add_message` over a list of turns, oldest first. -/
def ConversationManager.addAll (cm : ConversationManager) :
    List Turn → ConversationManager
  | [] => cm
  | t :: ts => (cm.add_message t.role t.content).addAll ts

/-- The fallback project context substituted by `DevAssistant.run` when
`get_recent_context` raises (src/web_app.py lines 77-79, a triple-quoted
string containing its own line breaks). -/
def defaultProjectContext : String :=
  "Default Project Context:\nConfidant is a privacy-focused, locally-run AI agent designed to preserve personal memories \nand provide secure, confidential data storage with robust access control mechanisms."

/-- The system prompt built by `DevAssistant.run` around the project context
(src/web_app.py lines 91-102). -/
def systemPromptFor (project_context : String) : String :=
  "You are an expert AI assistant helping with the Confidant project.\n\nProject Context:\n" ++
  project_context ++
  "\n\nYour responsibilities:\n- Provide clear, concise, and actionable advice\n- Use markdown for code formatting\n- Help with project development, design, and strategy\n- Break down complex topics into easy-to-understand explanations\n- Maintain and build upon the project's context and progress\n- Offer strategic insights based on the project's current state"

/-- The error string returned by the outer `except` clause of
`DevAssistant.run` for an exception whose `str()` is `e`. -/
def runErrorString (e : String) : String :=
  "An error occurred while processing your request. Please try again. Error details: " ++ e

/-- The outcomes of the three external effects `DevAssistant.run` performs,
each of which can raise: `confidant_project.get_recent_context()` (an
exception message or the returned context string), the
`client.messages.create` provider call (an exception message or the reply
text), and `confidant_project.log_meeting` (an exception message or
success). -/
structure RunEnv where
  contextResult : Except String String
  llmResult : Except String String
  logResult : Except String Unit
deriving DecidableEq

/-- What one call of `DevAssistant.run` produces: the string returned to the
caller, the conversation buffer afterwards, the system prompt it built for
the provider call, and the `details` dictionary of the meeting it logged
(`none` when the log step failed or was never reached). -/
structure RunOutcome where
  reply : String
  buf : ConversationManager
  systemPrompt : String
  logged : Option MeetingDetails
deriving DecidableEq

/-- Embeds `DevAssistant.run(query)` (src/web_app.py lines 70-125). Control flow of
the source: inside the outer `try`, (1) get the project context, substituting
`defaultProjectContext` with only a warning when that raises; (2) append the
user turn to the global conversation manager; (3) build the message list and
system prompt; (4) call the provider — if it raises, the outer `except`
returns `runErrorString` (buffer mutations already made persist); (5) append
the assistant turn; (6) attempt `log_meeting` with the query as
`key_discussions` and `ai_response[:200] + '...'` as `action_items`, only
warning when it raises; (7) return the reply text. -/
def DevAssistant.run (env : RunEnv) (cm : ConversationManager) (query : String) :
    RunOutcome :=
  let project_context :=
    match env.contextResult with
    | Except.ok c => c
    | Except.error _ => defaultProjectContext
  let cm1 := cm.add_message "user" query
  let prompt := systemPromptFor project_context
  match env.llmResult with
  | Except.error e =>
    { reply := runErrorString e, buf := cm1, systemPrompt := prompt, logged := none }
  | Except.ok ai_response =>
    let cm2 := cm1.add_message "assistant" ai_response
    let details : MeetingDetails :=
      { participants := some ["User", "AI Assistant"]
        key_discussions := some [query]
        action_items := some [ai_response.take 200 ++ "..."] }
    match env.logResult with
    | Except.error _ =>
      { reply := ai_response, buf := cm2, systemPrompt := prompt, logged := none }
    | Except.ok _ =>
      { reply := ai_response, buf := cm2, systemPrompt := prompt, logged := some details }

/-! ### Concrete fixtures used by witnesses and counterexamples -/

/-- A reference instant for concrete scans: 60 days (in seconds). -/
def demoNow : Int := 5184000

/-- An in-window sample meeting (date 2600000 > the 30-day cutoff 2592000). -/
def meetA : Meeting :=
  { id := "meeting_20240131_000000_aaaa0001"
    timestamp := "20240131_000000"
    dateStr := "2024-01-31T00:00:00"
    date := 2600000
    participants := ["Project Lead", "Developer"]
    key_discussions := ["Memory storage architecture"]
    action_items := ["Finalize encryption strategy"]
    decisions := []
    next_steps := [] }

/-- A meeting dated exactly on the 30-day cutoff instant of `demoNow`. -/
def meetB : Meeting :=
  { id := "meeting_20240131_000001_aaaa0002"
    timestamp := "20240131_000001"
    dateStr := "2024-01-31T00:00:01"
    date := 2592000
    participants := []
    key_discussions := ["Boundary meeting"]
    action_items := []
    decisions := []
    next_steps := [] }

/-- A meeting far older than the window. -/
def meetOld : Meeting :=
  { id := "meeting_20230101_000000_aaaa0003"
    timestamp := "20230101_000000"
    dateStr := "2023-01-01T00:00:00"
    date := 100
    participants := []
    key_discussions := ["Ancient kickoff"]
    action_items := []
    decisions := []
    next_steps := [] }

/-- An in-window requirement change whose rationale mentions encryption. -/
def reqEnc : RequirementChange :=
  { id := "requirement_20240131_000002_bbbb0001"
    timestamp := "20240131_000002"
    dateStr := "2024-01-31T00:00:02"
    date := 2600000
    category := "Technical Requirements"
    changes := ["Added offline functionality specification"]
    rationale := "Ensure complete local data Encryption"
    impact := ["Requires additional local processing capabilities"]
    proposed_by := "Unknown" }

/-- An in-window requirement change unrelated to encryption. -/
def reqOther : RequirementChange :=
  { id := "requirement_20240131_000003_bbbb0002"
    timestamp := "20240131_000003"
    dateStr := "2024-01-31T00:00:03"
    date := 2600001
    category := "General"
    changes := ["Updated color palette"]
    rationale := "Improve readability"
    impact := []
    proposed_by := "Designer" }

/-- An in-window milestone. -/
def mileA : Milestone :=
  { id := "milestone_20240131_000004_cccc0001"
    timestamp := "20240131_000004"
    dateStr := "2024-01-31T00:00:04"
    date := 2600002
    name := "Initial Architecture Design"
    description := "Complete high-level system design"
    status := "Completed"
    completion_date := none
    key_achievements := ["Defined memory storage approach"] }

/-- An in-window milestone record that the fixtures store under a filename
lacking the `milestone_` prefix, so the logs-directory name filter skips
it. -/
def mileB : Milestone :=
  { id := "milestone_20240131_000005_cccc0002"
    timestamp := "20240131_000005"
    dateStr := "2024-01-31T00:00:05"
    date := 2600003
    name := "Stray Log"
    description := ""
    status := "Pending"
    completion_date := some "2024-02-01"
    key_achievements := [] }

/-- A fully parseable record store exercising the filename filters and the
window boundary. -/
def okStore : Store :=
  { project_name := "Confidant"
    meetings := [("meeting_20240131_000000_aaaa0001.json", Except.ok meetA),
                 ("notes.txt", Except.ok meetOld),
                 ("meeting_20240131_000001_aaaa0002.json", Except.ok meetB),
                 ("meeting_20230101_000000_aaaa0003.json", Except.ok meetOld)]
    requirements := [("requirement_20240131_000002_bbbb0001.json", Except.ok reqEnc),
                     ("requirement_20240131_000003_bbbb0002.json", Except.ok reqOther)]
    logs := [("milestone_20240131_000004_cccc0001.json", Except.ok mileA),
             ("stray_log.json", Except.ok mileB)] }

/-- The summary `generate_project_summary okStore demoNow 30` produces. -/
def okSummary : Summary :=
  { project_name := "Confidant"
    summary_period := "Last 30 days"
    meetings := [meetA]
    requirement_changes := [reqEnc, reqOther]
    milestones := [mileA] }

/-- The Python `json.JSONDecodeError` message raised on an empty/garbage
record file. -/
def corruptMsg : String := "Expecting value: line 1 column 1 (char 0)"

/-- A record store whose meetings directory holds one malformed-JSON file
alongside a parseable in-window record. -/
def corruptStore : Store :=
  { project_name := "Confidant"
    meetings := [("meeting_20240130_000000_dddd0001.json", Except.error corruptMsg),
                 ("meeting_20240131_000000_aaaa0001.json", Except.ok meetA)]
    requirements := [("requirement_20240131_000002_bbbb0001.json", Except.ok reqEnc)]
    logs := [("milestone_20240131_000004_cccc0001.json", Except.ok mileA)] }

/-- A store with no record files at all. -/
def emptyStore : Store :=
  { project_name := "Confidant", meetings := [], requirements := [], logs := [] }

/-- The result of filtering `okSummary` for the category `encryption`:
`meetA` (whose action items mention an encryption strategy) and `reqEnc`
(whose rationale mentions encryption) match, `reqOther` and `mileA` do not. -/
def encSummary : FilteredSummary :=
  { meetings := [meetA], requirement_changes := [reqEnc], milestones := [] }


/-- The summary of `okStore` over a 60-day window: the boundary and old
records enter as well. -/
def okSummary60 : Summary :=
  { project_name := "Confidant"
    summary_period := "Last 60 days"
    meetings := [meetA, meetB, meetOld]
    requirement_changes := [reqEnc, reqOther]
    milestones := [mileA] }

/-- Twenty-one distinct concrete turns. -/
def turns21 : List Turn :=
  (List.range 21).map (fun i => { role := "user", content := toString i })

/-- The initial `project_metadata.json` contents (with the lazily created
sections still absent). -/
def demoMetadata : Metadata :=
  { project_name := "Confidant"
    created_at := "2024-01-01T00:00:00"
    last_updated := "2024-01-01T00:00:00"
    status := "Active"
    sections := [("milestones", []), ("key_objectives", [])] }

/-- The empty summary over a 30-day window. -/
def emptySummary : Summary :=
  { project_name := "Confidant"
    summary_period := "Last 30 days"
    meetings := []
    requirement_changes := []
    milestones := [] }

/-- An empty conversation buffer at the default capacity 20. -/
def cm0 : ConversationManager := { history := [], max_history_length := 20 }

/-- A run environment in which context retrieval raises but the provider
call succeeds. -/
def envCtxFail : RunEnv :=
  { contextResult := Except.error "disk failure"
    llmResult := Except.ok "Here is my advice."
    logResult := Except.ok () }

/-- A run environment in which the provider call raises. -/
def envLlmFail : RunEnv :=
  { contextResult := Except.ok "Recent Project Context (Last 30 days): ..."
    llmResult := Except.error "rate limit exceeded"
    logResult := Except.ok () }

/-! ### Helper lemmas about the directory scan -/

/-- Membership characterization of a successful scan: a record is in the
output iff it is the parsed content of some kept file and its date is
strictly after the cutoff. -/
theorem scanFiles_ok_mem {α : Type} (keep : String → Bool) (cutoff : Int)
    (dateOf : α → Int) :
    ∀ (files : List (FileEntry α)) (l : List α),
      scanFiles keep cutoff dateOf files = Except.ok l →
      ∀ x : α, x ∈ l ↔
        ((∃ n, (n, Except.ok x) ∈ files ∧ keep n = true) ∧ dateOf x > cutoff) := by
  intro files
  induction files with
  | nil =>
    intro l h x
    simp only [scanFiles] at h
    injection h with h
    subst h
    simp
  | cons f rest ih =>
    obtain ⟨name, content⟩ := f
    intro l h x
    simp only [scanFiles] at h
    by_cases hk : keep name = true
    · rw [if_pos hk] at h
      cases content with
      | error e => exact Except.noConfusion h
      | ok r =>
        cases hrest : scanFiles keep cutoff dateOf rest with
        | error e =>
          rw [hrest] at h
          exact Except.noConfusion h
        | ok tail =>
          rw [hrest] at h
          injection h with h
          subst h
          have ihx := ih tail hrest x
          by_cases hd : dateOf r > cutoff
          · rw [if_pos hd]
            constructor
            · intro hx
              rcases List.mem_cons.mp hx with rfl | hxt
              · exact ⟨⟨name, List.mem_cons_self _ _, hk⟩, hd⟩
              · obtain ⟨⟨n, hn, hkn⟩, hdx⟩ := ihx.mp hxt
                exact ⟨⟨n, List.mem_cons_of_mem _ hn, hkn⟩, hdx⟩
            · rintro ⟨⟨n, hn, hkn⟩, hdx⟩
              rcases List.mem_cons.mp hn with heq | hn
              · injection heq with h1 h2
                injection h2 with h2
                subst h2
                exact List.mem_cons_self _ _
              · exact List.mem_cons_of_mem _ (ihx.mpr ⟨⟨n, hn, hkn⟩, hdx⟩)
          · rw [if_neg hd]
            constructor
            · intro hxt
              obtain ⟨⟨n, hn, hkn⟩, hdx⟩ := ihx.mp hxt
              exact ⟨⟨n, List.mem_cons_of_mem _ hn, hkn⟩, hdx⟩
            · rintro ⟨⟨n, hn, hkn⟩, hdx⟩
              rcases List.mem_cons.mp hn with heq | hn
              · exfalso
                injection heq with h1 h2
                injection h2 with h2
                subst h2
                exact hd hdx
              · exact ihx.mpr ⟨⟨n, hn, hkn⟩, hdx⟩
    · rw [if_neg hk] at h
      have ihx := ih l h x
      rw [ihx]
      constructor
      · rintro ⟨⟨n, hn, hkn⟩, hdx⟩
        exact ⟨⟨n, List.mem_cons_of_mem _ hn, hkn⟩, hdx⟩
      · rintro ⟨⟨n, hn, hkn⟩, hdx⟩
        rcases List.mem_cons.mp hn with heq | hn
        · exfalso
          injection heq with h1 h2
          subst h1
          exact hk hkn
        · exact ⟨⟨n, hn, hkn⟩, hdx⟩

/-- A scan over a directory containing a kept file that failed to parse
always aborts with some error. -/
theorem scanFiles_err_of_corrupt {α : Type} (keep : String → Bool) (cutoff : Int)
    (dateOf : α → Int) :
    ∀ (files : List (FileEntry α)) (n : String) (e : String),
      (n, (Except.error e : Except String α)) ∈ files → keep n = true →
      ∃ e2, scanFiles keep cutoff dateOf files = Except.error e2 := by
  intro files
  induction files with
  | nil =>
    intro n e hmem _
    exact absurd hmem (List.not_mem_nil _)
  | cons f rest ih =>
    obtain ⟨name, content⟩ := f
    intro n e hmem hk
    simp only [scanFiles]
    by_cases hkname : keep name = true
    · rw [if_pos hkname]
      cases content with
      | error e3 => exact ⟨e3, rfl⟩
      | ok r =>
        rcases List.mem_cons.mp hmem with heq | hmem2
        · exfalso
          injection heq with h1 h2
          exact Except.noConfusion h2
        · obtain ⟨e2, he2⟩ := ih n e hmem2 hk
          rw [he2]
          exact ⟨e2, rfl⟩
    · rw [if_neg hkname]
      rcases List.mem_cons.mp hmem with heq | hmem2
      · exfalso
        injection heq with h1 h2
        subst h1
        exact hkname hk
      · exact ih n e hmem2 hk

/-- Destructor for a successful `generate_project_summary` call: all three
directory scans succeeded and produced the three sequences of the summary,
against the cutoff `now - days * 86400` seconds. -/
theorem generate_ok_elim (st : Store) (now days : Int) (s : Summary)
    (h : generate_project_summary st now days = Except.ok s) :
    scanFiles (fun n => pyEndsWith n ".json") (now - days * secondsPerDay)
        Meeting.date st.meetings = Except.ok s.meetings ∧
    scanFiles (fun n => pyEndsWith n ".json") (now - days * secondsPerDay)
        RequirementChange.date st.requirements = Except.ok s.requirement_changes ∧
    scanFiles (fun n => pyStartsWith n "milestone_" && pyEndsWith n ".json")
        (now - days * secondsPerDay) Milestone.date st.logs = Except.ok s.milestones := by
  simp only [generate_project_summary] at h
  split at h
  · exact Except.noConfusion h
  next ms hm =>
    split at h
    · exact Except.noConfusion h
    next rs hr =>
      split at h
      · exact Except.noConfusion h
      next mls hl =>
        injection h with h
        subst h
        exact ⟨hm, hr, hl⟩

/-- Membership in the meetings sequence of a successful summary. -/
theorem generate_ok_mem_meetings (st : Store) (now days : Int) (s : Summary)
    (h : generate_project_summary st now days = Except.ok s) (m : Meeting) :
    m ∈ s.meetings ↔
      ((∃ n, (n, Except.ok m) ∈ st.meetings ∧ pyEndsWith n ".json" = true) ∧
        m.date > now - days * secondsPerDay) :=
  scanFiles_ok_mem _ _ _ _ _ (generate_ok_elim st now days s h).1 m

/-- Membership in the requirement-change sequence of a successful summary. -/
theorem generate_ok_mem_requirements (st : Store) (now days : Int) (s : Summary)
    (h : generate_project_summary st now days = Except.ok s) (r : RequirementChange) :
    r ∈ s.requirement_changes ↔
      ((∃ n, (n, Except.ok r) ∈ st.requirements ∧ pyEndsWith n ".json" = true) ∧
        r.date > now - days * secondsPerDay) :=
  scanFiles_ok_mem _ _ _ _ _ (generate_ok_elim st now days s h).2.1 r

/-- Membership in the milestones sequence of a successful summary. -/
theorem generate_ok_mem_milestones (st : Store) (now days : Int) (s : Summary)
    (h : generate_project_summary st now days = Except.ok s) (m : Milestone) :
    m ∈ s.milestones ↔
      ((∃ n, (n, Except.ok m) ∈ st.logs ∧
          (pyStartsWith n "milestone_" && pyEndsWith n ".json") = true) ∧
        m.date > now - days * secondsPerDay) :=
  scanFiles_ok_mem _ _ _ _ _ (generate_ok_elim st now days s h).2.2 m

/-! ### Claims -/

/-- C1 counterexample: on a store whose meetings directory holds one
malformed-JSON record file next to a parseable in-window meeting, a
parseable requirement change and a parseable milestone,
`generate_project_summary` does not complete successfully: it aborts with the
JSON parse error, returning no Summary at all (so the other parseable
records are not returned either), contradicting the claim that the scan
"still completes successfully ... and never aborts with an error". -/
theorem C1_counterexample :
    generate_project_summary corruptStore demoNow 30 = Except.error corruptMsg := by
  decide

/-- C1 (amended): if any scanned record file (a `.json` file of the meetings
or requirements directory, or a `milestone_*.json` file of the logs
directory) contains malformed JSON, `generate_project_summary` aborts with
an error instead of skipping the corrupt record: the parse failure
propagates and no Summary is returned. -/
theorem C1_theorem (st : Store) (now days : Int)
    (h : (∃ n e, (n, (Except.error e : Except String Meeting)) ∈ st.meetings ∧
            pyEndsWith n ".json" = true) ∨
         (∃ n e, (n, (Except.error e : Except String RequirementChange)) ∈ st.requirements ∧
            pyEndsWith n ".json" = true) ∨
         (∃ n e, (n, (Except.error e : Except String Milestone)) ∈ st.logs ∧
            (pyStartsWith n "milestone_" && pyEndsWith n ".json") = true)) :
    ∃ e2, generate_project_summary st now days = Except.error e2 := by
  cases hgen : generate_project_summary st now days with
  | error e2 => exact ⟨e2, rfl⟩
  | ok s =>
    exfalso
    obtain ⟨hm, hr, hl⟩ := generate_ok_elim st now days s hgen
    rcases h with ⟨n, e, hmem, hkeep⟩ | ⟨n, e, hmem, hkeep⟩ | ⟨n, e, hmem, hkeep⟩
    · obtain ⟨e2, he2⟩ := scanFiles_err_of_corrupt (fun n => pyEndsWith n ".json")
        (now - days * secondsPerDay) Meeting.date st.meetings n e hmem hkeep
      rw [hm] at he2
      exact Except.noConfusion he2
    · obtain ⟨e2, he2⟩ := scanFiles_err_of_corrupt (fun n => pyEndsWith n ".json")
        (now - days * secondsPerDay) RequirementChange.date st.requirements n e hmem hkeep
      rw [hr] at he2
      exact Except.noConfusion he2
    · obtain ⟨e2, he2⟩ := scanFiles_err_of_corrupt
        (fun n => pyStartsWith n "milestone_" && pyEndsWith n ".json")
        (now - days * secondsPerDay) Milestone.date st.logs n e hmem hkeep
      rw [hl] at he2
      exact Except.noConfusion he2

/-- C1 witness: the amended claim applied to the concrete corrupted store. -/
theorem C1_witness :
    ∃ e2, generate_project_summary corruptStore demoNow 30 = Except.error e2 :=
  C1_theorem corruptStore demoNow 30
    (Or.inl ⟨"meeting_20240130_000000_dddd0001.json", corruptMsg, by decide, by decide⟩)

/-- C2: on a scan that completes, a record file whose `date` parses to `d`
is included in the Summary iff `d` is strictly greater than
`now - days` (in seconds, `now - days * 86400`); in particular a record
whose date equals the cutoff instant exactly is excluded. Stated for each of
the three categories. -/
theorem C2_theorem (st : Store) (now days : Int) (s : Summary)
    (h : generate_project_summary st now days = Except.ok s) :
    (∀ (m : Meeting) (n : String), (n, Except.ok m) ∈ st.meetings →
        pyEndsWith n ".json" = true →
        (m ∈ s.meetings ↔ m.date > now - days * secondsPerDay)) ∧
    (∀ (r : RequirementChange) (n : String), (n, Except.ok r) ∈ st.requirements →
        pyEndsWith n ".json" = true →
        (r ∈ s.requirement_changes ↔ r.date > now - days * secondsPerDay)) ∧
    (∀ (m : Milestone) (n : String), (n, Except.ok m) ∈ st.logs →
        (pyStartsWith n "milestone_" && pyEndsWith n ".json") = true →
        (m ∈ s.milestones ↔ m.date > now - days * secondsPerDay)) ∧
    (∀ (m : Meeting) (n : String), (n, Except.ok m) ∈ st.meetings →
        pyEndsWith n ".json" = true →
        m.date = now - days * secondsPerDay → m ∉ s.meetings) ∧
    (∀ (r : RequirementChange) (n : String), (n, Except.ok r) ∈ st.requirements →
        pyEndsWith n ".json" = true →
        r.date = now - days * secondsPerDay → r ∉ s.requirement_changes) ∧
    (∀ (m : Milestone) (n : String), (n, Except.ok m) ∈ st.logs →
        (pyStartsWith n "milestone_" && pyEndsWith n ".json") = true →
        m.date = now - days * secondsPerDay → m ∉ s.milestones) := by
  refine ⟨?_, ?_, ?_, ?_, ?_, ?_⟩
  · intro m n hmem hk
    rw [generate_ok_mem_meetings st now days s h m]
    exact ⟨fun hp => hp.2, fun hd => ⟨⟨n, hmem, hk⟩, hd⟩⟩
  · intro r n hmem hk
    rw [generate_ok_mem_requirements st now days s h r]
    exact ⟨fun hp => hp.2, fun hd => ⟨⟨n, hmem, hk⟩, hd⟩⟩
  · intro m n hmem hk
    rw [generate_ok_mem_milestones st now days s h m]
    exact ⟨fun hp => hp.2, fun hd => ⟨⟨n, hmem, hk⟩, hd⟩⟩
  · intro m n hmem hk heq hin
    have hd := ((generate_ok_mem_meetings st now days s h m).mp hin).2
    rw [heq] at hd
    exact lt_irrefl _ hd
  · intro r n hmem hk heq hin
    have hd := ((generate_ok_mem_requirements st now days s h r).mp hin).2
    rw [heq] at hd
    exact lt_irrefl _ hd
  · intro m n hmem hk heq hin
    have hd := ((generate_ok_mem_milestones st now days s h m).mp hin).2
    rw [heq] at hd
    exact lt_irrefl _ hd

/-- C2 witness: on the concrete store, `meetA` (strictly inside the window)
is included and `meetB` (dated exactly on the cutoff instant) is excluded. -/
theorem C2_witness :
    generate_project_summary okStore demoNow 30 = Except.ok okSummary ∧
    (meetA ∈ okSummary.meetings ↔ meetA.date > demoNow - 30 * secondsPerDay) ∧
    meetB ∉ okSummary.meetings :=
  ⟨by decide,
   (C2_theorem okStore demoNow 30 okSummary (by decide)).1 meetA
     "meeting_20240131_000000_aaaa0001.json" (by decide) (by decide),
   (C2_theorem okStore demoNow 30 okSummary (by decide)).2.2.2.1 meetB
     "meeting_20240131_000001_aaaa0002.json" (by decide) (by decide) (by decide)⟩

/-- C3: for two successful scans of the same store at the same reference
time with window sizes W1 < W2, every record of each of the three sequences
of the W1 summary also occurs in the corresponding sequence of the W2
summary. -/
theorem C3_theorem (st : Store) (now W1 W2 : Int) (s1 s2 : Summary)
    (hW : W1 < W2)
    (h1 : generate_project_summary st now W1 = Except.ok s1)
    (h2 : generate_project_summary st now W2 = Except.ok s2) :
    (∀ m ∈ s1.meetings, m ∈ s2.meetings) ∧
    (∀ r ∈ s1.requirement_changes, r ∈ s2.requirement_changes) ∧
    (∀ m ∈ s1.milestones, m ∈ s2.milestones) := by
  have hc : now - W2 * secondsPerDay ≤ now - W1 * secondsPerDay := by
    have hmul : W1 * secondsPerDay ≤ W2 * secondsPerDay := by
      have hval : (0 : Int) ≤ secondsPerDay := by norm_num [secondsPerDay]
      exact mul_le_mul_of_nonneg_right (le_of_lt hW) hval
    omega
  refine ⟨?_, ?_, ?_⟩
  · intro m hmem
    obtain ⟨hex, hd⟩ := (generate_ok_mem_meetings st now W1 s1 h1 m).mp hmem
    exact (generate_ok_mem_meetings st now W2 s2 h2 m).mpr ⟨hex, lt_of_le_of_lt hc hd⟩
  · intro r hmem
    obtain ⟨hex, hd⟩ := (generate_ok_mem_requirements st now W1 s1 h1 r).mp hmem
    exact (generate_ok_mem_requirements st now W2 s2 h2 r).mpr ⟨hex, lt_of_le_of_lt hc hd⟩
  · intro m hmem
    obtain ⟨hex, hd⟩ := (generate_ok_mem_milestones st now W1 s1 h1 m).mp hmem
    exact (generate_ok_mem_milestones st now W2 s2 h2 m).mpr ⟨hex, lt_of_le_of_lt hc hd⟩


/-- C3 witness: concrete windows 30 < 60 over `okStore`; the in-window
meeting of the 30-day summary occurs in the 60-day summary. -/
theorem C3_witness :
    (30 : Int) < 60 ∧
    generate_project_summary okStore demoNow 30 = Except.ok okSummary ∧
    generate_project_summary okStore demoNow 60 = Except.ok okSummary60 ∧
    meetA ∈ okSummary60.meetings :=
  ⟨by decide, by decide, by decide,
   (C3_theorem okStore demoNow 30 60 okSummary okSummary60 (by decide)
     (by decide) (by decide)).1 meetA (by decide)⟩

/-- Appending turns while the buffer stays under capacity never evicts:
the history is extended in order. -/
theorem addAll_of_le (ts : List Turn) : ∀ (cm : ConversationManager),
    cm.history.length + ts.length ≤ cm.max_history_length →
    (cm.addAll ts).history = cm.history ++ ts := by
  induction ts with
  | nil =>
    intro cm _
    simp [ConversationManager.addAll]
  | cons t rest ih =>
    intro cm h
    have hlt : cm.history.length < cm.max_history_length := by
      simp only [List.length_cons] at h
      omega
    have hstep : (cm.add_message t.role t.content).history = cm.history ++ [t] := by
      unfold ConversationManager.add_message
      rw [if_neg (not_le.mpr hlt)]
    show ((cm.add_message t.role t.content).addAll rest).history = _
    rw [ih]
    · rw [hstep, List.append_assoc]
      rfl
    · rw [hstep]
      simp only [List.length_append, List.length_singleton]
      simp only [List.length_cons] at h
      have hcap : (cm.add_message t.role t.content).max_history_length =
          cm.max_history_length := rfl
      rw [hcap]
      omega

/-- Filling a capacity-`cap` buffer from a state at most full with exactly
one more turn than fits leaves the oldest turn evicted. -/
theorem addAll_one_over (ts : List Turn) : ∀ (cm : ConversationManager),
    cm.history.length ≤ cm.max_history_length →
    0 < cm.max_history_length →
    cm.history.length + ts.length = cm.max_history_length + 1 →
    (cm.addAll ts).history = (cm.history ++ ts).drop 1 := by
  induction ts with
  | nil =>
    intro cm hle hpos hlen
    simp only [List.length_nil] at hlen
    omega
  | cons t rest ih =>
    intro cm hle hpos hlen
    simp only [List.length_cons] at hlen
    show ((cm.add_message t.role t.content).addAll rest).history = _
    by_cases hfull : cm.history.length ≥ cm.max_history_length
    · have hrest : rest = [] := by
        have : rest.length = 0 := by omega
        exact List.eq_nil_of_length_eq_zero this
      subst hrest
      have hstep : (cm.add_message t.role t.content).history =
          cm.history.drop 1 ++ [t] := by
        unfold ConversationManager.add_message
        rw [if_pos hfull]
      show (cm.add_message t.role t.content).history = _
      rw [hstep, List.drop_append_of_le_length (by omega)]
    · have hstep : (cm.add_message t.role t.content).history = cm.history ++ [t] := by
        unfold ConversationManager.add_message
        rw [if_neg hfull]
      have hcap : (cm.add_message t.role t.content).max_history_length =
          cm.max_history_length := rfl
      rw [ih]
      · rw [hstep, List.append_assoc]
        rfl
      · rw [hstep, hcap]
        simp only [List.length_append, List.length_singleton]
        omega
      · rw [hcap]
        exact hpos
      · rw [hstep, hcap]
        simp only [List.length_append, List.length_singleton]
        omega

/-- C4: the Conversation Buffer contract. `add_message` evicts the turn at
index 0 before appending exactly when the current length has reached the
capacity (and otherwise appends without evicting); starting from an empty
buffer of the default capacity 20, appending 21 turns leaves exactly the
last 20 in FIFO chronological order (the oldest evicted); after `reset` the
history is empty. -/
theorem C4_theorem :
    (∀ (cm : ConversationManager) (role content : String),
        cm.history.length ≥ cm.max_history_length →
        (cm.add_message role content).history =
          cm.history.drop 1 ++ [{ role := role, content := content }]) ∧
    (∀ (cm : ConversationManager) (role content : String),
        cm.history.length < cm.max_history_length →
        (cm.add_message role content).history =
          cm.history ++ [{ role := role, content := content }]) ∧
    (∀ ts : List Turn, ts.length = 21 →
        (ConversationManager.addAll { history := [], max_history_length := 20 } ts).history =
          ts.drop 1) ∧
    (∀ cm : ConversationManager, cm.reset.history = []) := by
  refine ⟨?_, ?_, ?_, ?_⟩
  · intro cm role content hfull
    unfold ConversationManager.add_message
    rw [if_pos hfull]
  · intro cm role content hlt
    unfold ConversationManager.add_message
    rw [if_neg (not_le.mpr hlt)]
  · intro ts hlen
    have := addAll_one_over ts { history := [], max_history_length := 20 }
      (by simp) (by norm_num) (by simpa using hlen)
    simpa using this
  · intro cm
    rfl


/-- C4 witness: the contract applied to 21 concrete turns on an empty
default buffer, and to a concrete non-empty buffer for the two eviction
conditions and `reset`. -/
theorem C4_witness :
    turns21.length = 21 ∧
    (ConversationManager.addAll { history := [], max_history_length := 20 } turns21).history =
      turns21.drop 1 ∧
    ({ history := [{ role := "user", content := "hi" }], max_history_length := 1 } :
        ConversationManager).history.length ≥ 1 ∧
    (({ history := [{ role := "user", content := "hi" }], max_history_length := 1 } :
        ConversationManager).add_message "assistant" "yo").history =
      [{ role := "assistant", content := "yo" }] ∧
    (({ history := [{ role := "user", content := "hi" }], max_history_length := 1 } :
        ConversationManager).reset).history = [] := by
  refine ⟨by decide, C4_theorem.2.2.1 turns21 (by decide), by decide, ?_, C4_theorem.2.2.2 _⟩
  have h := C4_theorem.1
    { history := [{ role := "user", content := "hi" }], max_history_length := 1 }
    "assistant" "yo" (by decide)
  simpa using h


/-- C5 counterexample: a concrete `log_meeting` call creates and persists a
record whose ID is `meeting_20240131_000000_aaaa0001`, yet the method's
return value is `None` — the newly created Record's ID is not returned to
the caller. (The same `ret := none` shape is proved for all three operations
in the amended theorem.) -/
theorem C5_counterexample :
    (log_meeting emptyStore demoMetadata "20240131_000000" "aaaa0001"
        "2024-01-31T00:00:00" 2600000 {}).record.id =
      "meeting_20240131_000000_aaaa0001" ∧
    (log_meeting emptyStore demoMetadata "20240131_000000" "aaaa0001"
        "2024-01-31T00:00:00" 2600000 {}).ret = none ∧
    (log_meeting emptyStore demoMetadata "20240131_000000" "aaaa0001"
        "2024-01-31T00:00:00" 2600000 {}).ret ≠
      some "meeting_20240131_000000_aaaa0001" := by
  exact ⟨by decide, by decide, by decide⟩

/-- C5 (amended): each of the three record-store append operations creates a
record with a fresh kind-prefixed ID, persists it as a new file named after
that ID in its category directory, and returns `None` — the new Record's ID
is embedded in the stored record but not returned to the caller. -/
theorem C5_theorem (st : Store) (md : Metadata) (ts u8 nowIso : String)
    (nowInstant : Int) (dm : MeetingDetails) (dr : RequirementDetails)
    (dl : MilestoneDetails) :
    ((log_meeting st md ts u8 nowIso nowInstant dm).ret = none ∧
      (log_meeting st md ts u8 nowIso nowInstant dm).record.id =
        "meeting_" ++ ts ++ "_" ++ u8 ∧
      (log_meeting st md ts u8 nowIso nowInstant dm).store.meetings =
        st.meetings ++ [("meeting_" ++ ts ++ "_" ++ u8 ++ ".json",
          Except.ok (log_meeting st md ts u8 nowIso nowInstant dm).record)]) ∧
    ((log_requirement_change st md ts u8 nowIso nowInstant dr).ret = none ∧
      (log_requirement_change st md ts u8 nowIso nowInstant dr).record.id =
        "requirement_" ++ ts ++ "_" ++ u8 ∧
      (log_requirement_change st md ts u8 nowIso nowInstant dr).store.requirements =
        st.requirements ++ [("requirement_" ++ ts ++ "_" ++ u8 ++ ".json",
          Except.ok (log_requirement_change st md ts u8 nowIso nowInstant dr).record)]) ∧
    ((log_milestone st md ts u8 nowIso nowInstant dl).ret = none ∧
      (log_milestone st md ts u8 nowIso nowInstant dl).record.id =
        "milestone_" ++ ts ++ "_" ++ u8 ∧
      (log_milestone st md ts u8 nowIso nowInstant dl).store.logs =
        st.logs ++ [("milestone_" ++ ts ++ "_" ++ u8 ++ ".json",
          Except.ok (log_milestone st md ts u8 nowIso nowInstant dl).record)]) :=
  ⟨⟨rfl, rfl, rfl⟩, ⟨rfl, rfl, rfl⟩, ⟨rfl, rfl, rfl⟩⟩


/-- C6: on a Summary whose three record sequences are all empty, the context
formatter produces exactly the window-naming header followed by the three
section labels with no body lines under any of them; and `get_recent_context`
on a store whose scan yields such a Summary returns that same text (no
error). -/
theorem C6_theorem (s : Summary) (days : Int)
    (hm : s.meetings = []) (hr : s.requirement_changes = [])
    (hl : s.milestones = []) :
    formatContext s days =
      "Recent Project Context (Last " ++ toString days ++
        " days):\n\nMeetings:\n\nRequirement Changes:\n\nMilestones:\n" ∧
    ∀ (st : Store) (now : Int),
      generate_project_summary st now days = Except.ok s →
      get_recent_context st now days =
        "Recent Project Context (Last " ++ toString days ++
          " days):\n\nMeetings:\n\nRequirement Changes:\n\nMilestones:\n" := by
  have hfmt : formatContext s days =
      "Recent Project Context (Last " ++ toString days ++
        " days):\n\nMeetings:\n\nRequirement Changes:\n\nMilestones:\n" := by
    unfold formatContext
    rw [hm, hr, hl]
    simp [String.append_assoc, String.append_empty, String.join]
  exact ⟨hfmt, fun st now hgen => by unfold get_recent_context; rw [hgen]; exact hfmt⟩

/-- C6 witness: the empty concrete summary over a 30-day window, and the
concrete empty store, both yield the header plus the three bare section
labels. -/
theorem C6_witness :
    emptySummary.meetings = [] ∧
    emptySummary.requirement_changes = [] ∧
    emptySummary.milestones = [] ∧
    generate_project_summary emptyStore demoNow 30 = Except.ok emptySummary ∧
    formatContext emptySummary 30 =
      "Recent Project Context (Last 30 days):\n\nMeetings:\n\nRequirement Changes:\n\nMilestones:\n" ∧
    get_recent_context emptyStore demoNow 30 =
      "Recent Project Context (Last 30 days):\n\nMeetings:\n\nRequirement Changes:\n\nMilestones:\n" := by
  have h := C6_theorem emptySummary 30 rfl rfl rfl
  exact ⟨rfl, rfl, rfl, by decide,
    by rw [h.1]; decide,
    by rw [h.2 emptyStore demoNow (by decide)]; decide⟩

/-- C7: when the underlying default-window scan succeeds,
`get_category_summary` returns the three sequences filtered to exactly the
records whose Python `str(...)` serialization contains the category as a
case-insensitive substring. -/
theorem C7_theorem (st : Store) (now : Int) (category : String) (s : Summary)
    (fs : FilteredSummary)
    (hgen : generate_project_summary st now 30 = Except.ok s)
    (hfs : get_category_summary st now category = some fs) :
    (∀ m : Meeting, m ∈ fs.meetings ↔
        m ∈ s.meetings ∧
          pySubstr (pyLower category) (pyLower (pyStrMeeting m)) = true) ∧
    (∀ r : RequirementChange, r ∈ fs.requirement_changes ↔
        r ∈ s.requirement_changes ∧
          pySubstr (pyLower category) (pyLower (pyStrRequirementChange r)) = true) ∧
    (∀ m : Milestone, m ∈ fs.milestones ↔
        m ∈ s.milestones ∧
          pySubstr (pyLower category) (pyLower (pyStrMilestone m)) = true) := by
  unfold get_category_summary at hfs
  rw [hgen] at hfs
  injection hfs with hfs
  subst hfs
  refine ⟨?_, ?_, ?_⟩ <;> intro x <;> exact List.mem_filter

/-- C7 witness: filtering `okStore`'s 30-day summary by `encryption` keeps
the requirement change whose rationale mentions encryption (and the meeting
whose action items do), and excludes the unrelated requirement change and
milestone. -/
theorem C7_witness :
    generate_project_summary okStore demoNow 30 = Except.ok okSummary ∧
    get_category_summary okStore demoNow "encryption" = some encSummary ∧
    (reqEnc ∈ encSummary.requirement_changes ↔
      reqEnc ∈ okSummary.requirement_changes ∧
        pySubstr (pyLower "encryption") (pyLower (pyStrRequirementChange reqEnc)) = true) ∧
    (reqOther ∈ encSummary.requirement_changes ↔
      reqOther ∈ okSummary.requirement_changes ∧
        pySubstr (pyLower "encryption") (pyLower (pyStrRequirementChange reqOther)) = true) ∧
    reqEnc ∈ encSummary.requirement_changes ∧
    reqOther ∉ encSummary.requirement_changes := by
  have h := C7_theorem okStore demoNow "encryption" okSummary encSummary
    (by decide) (by decide)
  exact ⟨by decide, by decide, h.2.1 reqEnc, h.2.1 reqOther, by decide, by decide⟩




/-- C8 counterexample: the claim says a failure of context retrieval is
converted into a descriptive user-visible error string; in the code it is
not — the failure is replaced by the fallback context and the run proceeds,
returning the provider's reply verbatim. Concretely: context retrieval
fails, the provider succeeds, and the returned string is the reply, not an
error string (every error string `run` builds starts with
`An error occurred`). -/
theorem C8_counterexample :
    (DevAssistant.run envCtxFail cm0 "How should we store memories?").reply =
      "Here is my advice." ∧
    pyStartsWith (DevAssistant.run envCtxFail cm0 "How should we store memories?").reply
      "An error occurred" = false := by
  exact ⟨by decide, by decide⟩

/-- C8 (amended): `DevAssistant.run` always returns a string and never
propagates an exception (the embedded `run` is total); a provider failure is
converted into the descriptive error string; a provider success is returned
verbatim; and the returned reply depends only on the provider outcome — in
particular a context-retrieval failure (replaced by the fallback context)
and a meeting-logging failure (only warned about) never change the reply. -/
theorem C8_theorem (env : RunEnv) (cm : ConversationManager) (query : String) :
    (∀ e, env.llmResult = Except.error e →
        (DevAssistant.run env cm query).reply = runErrorString e) ∧
    (∀ ai, env.llmResult = Except.ok ai →
        (DevAssistant.run env cm query).reply = ai) ∧
    (∀ env2 : RunEnv, env2.llmResult = env.llmResult →
        (DevAssistant.run env2 cm query).reply =
          (DevAssistant.run env cm query).reply) := by
  refine ⟨?_, ?_, ?_⟩
  · intro e he
    unfold DevAssistant.run
    rw [he]
  · intro ai hai
    unfold DevAssistant.run
    rw [hai]
    cases env.logResult <;> rfl
  · intro env2 heq
    unfold DevAssistant.run
    rw [heq]
    cases henv : env.llmResult with
    | error e => rfl
    | ok ai => cases env2.logResult <;> cases env.logResult <;> rfl

/-- C8 witness: on a concrete environment whose provider call fails, the
reply is the descriptive error string; on one whose context retrieval fails,
the reply equals that of the same environment with context retrieval
succeeding. -/
theorem C8_witness :
    (DevAssistant.run envLlmFail cm0 "hello").reply =
      runErrorString "rate limit exceeded" ∧
    (DevAssistant.run envCtxFail cm0 "hello").reply =
      (DevAssistant.run { envCtxFail with contextResult := Except.ok "ctx" }
        cm0 "hello").reply :=
  ⟨(C8_theorem envLlmFail cm0 "hello").1 "rate limit exceeded" rfl,
   (C8_theorem { envCtxFail with contextResult := Except.ok "ctx" } cm0 "hello").2.2
     envCtxFail rfl⟩

/-- C9: on the provider-failure path of `DevAssistant.run`, the conversation
buffer is not rolled back: its final state is exactly the buffer after the
user turn was appended (the user's turn is present), nothing beyond that
user turn was added — in particular no assistant turn, and neither a reply
nor the returned error string is appended — and the caller receives the
error string. -/
theorem C9_theorem (env : RunEnv) (cm : ConversationManager) (query : String)
    (e : String) (h : env.llmResult = Except.error e) :
    (DevAssistant.run env cm query).buf = cm.add_message "user" query ∧
    ({ role := "user", content := query } : Turn) ∈
      (DevAssistant.run env cm query).buf.history ∧
    (∀ t ∈ (DevAssistant.run env cm query).buf.history,
        t ∈ cm.history ∨ t = { role := "user", content := query }) ∧
    (∀ t ∈ (DevAssistant.run env cm query).buf.history, t.role ≠ "assistant" ∨
        t ∈ cm.history) ∧
    (DevAssistant.run env cm query).reply = runErrorString e := by
  have hbuf : (DevAssistant.run env cm query).buf = cm.add_message "user" query := by
    unfold DevAssistant.run
    rw [h]
  have honly : ∀ t ∈ (DevAssistant.run env cm query).buf.history,
      t ∈ cm.history ∨ t = { role := "user", content := query } := by
    rw [hbuf]
    intro t ht
    unfold ConversationManager.add_message at ht
    rw [List.mem_append] at ht
    rcases ht with ht | ht
    · left
      by_cases hc : cm.history.length ≥ cm.max_history_length
      · rw [if_pos hc] at ht
        exact List.drop_subset 1 cm.history ht
      · rw [if_neg hc] at ht
        exact ht
    · right
      simpa using ht
  refine ⟨hbuf, ?_, honly, ?_, ?_⟩
  · rw [hbuf]
    unfold ConversationManager.add_message
    exact List.mem_append_right _ (List.mem_singleton.mpr rfl)
  · intro t ht
    rcases honly t ht with hmem | heq
    · right
      exact hmem
    · left
      rw [heq]
      exact fun hc => (by decide : ("user" : String) ≠ "assistant") hc
  · unfold DevAssistant.run
    rw [h]

/-- C9 witness: a concrete failing-provider run starting from the empty
default buffer: the buffer holds exactly the user's turn afterwards and the
error string is returned, not appended. -/
theorem C9_witness :
    envLlmFail.llmResult = Except.error "rate limit exceeded" ∧
    (DevAssistant.run envLlmFail cm0 "hi").buf = cm0.add_message "user" "hi" ∧
    ({ role := "user", content := "hi" } : Turn) ∈
      (DevAssistant.run envLlmFail cm0 "hi").buf.history ∧
    (DevAssistant.run envLlmFail cm0 "hi").reply =
      runErrorString "rate limit exceeded" :=
  ⟨rfl,
   (C9_theorem envLlmFail cm0 "hi" "rate limit exceeded" rfl).1,
   (C9_theorem envLlmFail cm0 "hi" "rate limit exceeded" rfl).2.1,
   (C9_theorem envLlmFail cm0 "hi" "rate limit exceeded" rfl).2.2.2.2⟩

/-- C10: every record returned by `get_category_summary` has a date strictly
inside the default 30-day window of the call time: the substring filter is
applied to a `generate_project_summary` result computed with `days = 30`,
whose members all satisfy `date > now - 30 days`. -/
theorem C10_theorem (st : Store) (now : Int) (category : String)
    (fs : FilteredSummary)
    (h : get_category_summary st now category = some fs) :
    (∀ m ∈ fs.meetings, m.date > now - 30 * secondsPerDay) ∧
    (∀ r ∈ fs.requirement_changes, r.date > now - 30 * secondsPerDay) ∧
    (∀ m ∈ fs.milestones, m.date > now - 30 * secondsPerDay) := by
  unfold get_category_summary at h
  cases hgen : generate_project_summary st now 30 with
  | error e =>
    rw [hgen] at h
    exact Option.noConfusion h
  | ok s =>
    rw [hgen] at h
    injection h with h
    subst h
    refine ⟨?_, ?_, ?_⟩
    · intro m hm
      exact ((generate_ok_mem_meetings st now 30 s hgen m).mp
        (List.mem_of_mem_filter hm)).2
    · intro r hr
      exact ((generate_ok_mem_requirements st now 30 s hgen r).mp
        (List.mem_of_mem_filter hr)).2
    · intro m hm
      exact ((generate_ok_mem_milestones st now 30 s hgen m).mp
        (List.mem_of_mem_filter hm)).2

/-- C10 witness: on the concrete store, the record kept by the `encryption`
filter is dated strictly inside the 30-day window. -/
theorem C10_witness :
    get_category_summary okStore demoNow "encryption" = some encSummary ∧
    reqEnc.date > demoNow - 30 * secondsPerDay :=
  ⟨by decide,
   (C10_theorem okStore demoNow "encryption" encSummary (by decide)).2.1
     reqEnc (by decide)⟩

end ProjectChatbot
